import Mathlib

/-!
Shallow embedding of the `rvp` APK-pipeline core (modules `rvp/context.py`,
`rvp/core.py`, `rvp/validators.py`, `rvp/optimizer.py`,
`rvp/engines/string_cleaner.py`) together with theorems settling the frozen
claims about it.

File-system effects are made explicit: existence checks take the set of
existing paths as a parameter, and functions that in Python raise an
exception return the post-state paired with an optional error, so that
"the object is unchanged when the call raises" is a provable statement
rather than a modelling artefact.
-/

namespace Rvp

/-! ## Context (`rvp/context.py`) -/

/-- Model of `rvp.context.Context`.  `work_dir`, `input_apk`, `output_dir`,
`engines` and `options` are the constructor fields; `current_apk' and
`metadata` are the mutable state; `logs` records the lines emitted through
`Context.log`.  `options` is irrelevant to the claims and is kept abstract
as a list of keys. -/
structure Context where
  work_dir : String
  input_apk : String
  output_dir : String
  engines : List String
  options : List String
  current_apk : Option String
  metadata : List String
  logs : List String
  deriving Repr, DecidableEq

/-- `Context.__post_init__`: after dataclass construction the
`current_apk` pointer is immediately set to `input_apk` (the directory
creation is a file-system effect with no bearing on the record state). -/
def Context.init (work input output : String) (engines options : List String) :
    Context :=
  { work_dir := work
    input_apk := input
    output_dir := output
    engines := engines
    options := options
    current_apk := some input
    metadata := []
    logs := [] }

/-- `Context.set_current_apk`: if the path does not exist (`fs` is the set
of existing paths), log an error and raise `FileNotFoundError`, leaving the
context unchanged; otherwise swap the pointer and append the informational
log line.  The returned `Bool` is `true` when the call raised. -/
def Context.set_current_apk (fs : List String) (ctx : Context) (apk : String) :
    Context × Bool :=
  if apk ∈ fs then
    ({ ctx with
        current_apk := some apk
        logs := ctx.logs ++ ["Current APK updated: " ++ apk] }, false)
  else
    (ctx, true)

/-! ## Hook dispatch (`rvp/core.py`, `dispatch_hooks`) -/

/-- Outcome of invoking one plugin hook handler.  `dispatch_hooks` catches
exactly `(RuntimeError, ValueError, OSError)`; `raisesOther` stands for a
handler raising any exception outside that tuple. -/
inductive HookRes where
  | ok
  | raisesRuntime
  | raisesValue
  | raisesOS
  | raisesOther
  deriving Repr, DecidableEq

/-- `dispatch_hooks`: iterate the handlers in order; a `RuntimeError`,
`ValueError` or `OSError` from a handler is caught and logged via
`ctx.log(..., level=40)` and iteration continues; any other exception
propagates out of the loop immediately (`error`).  On normal return the
list of error-log lines is produced. -/
def dispatch_hooks (stage : String) : List HookRes → Except String (List String)
  | [] => Except.ok []
  | h :: rest =>
    match h with
    | HookRes.ok => dispatch_hooks stage rest
    | HookRes.raisesRuntime =>
      match dispatch_hooks stage rest with
      | Except.ok logs => Except.ok (("Plugin hook error at " ++ stage) :: logs)
      | Except.error e => Except.error e
    | HookRes.raisesValue =>
      match dispatch_hooks stage rest with
      | Except.ok logs => Except.ok (("Plugin hook error at " ++ stage) :: logs)
      | Except.error e => Except.error e
    | HookRes.raisesOS =>
      match dispatch_hooks stage rest with
      | Except.ok logs => Except.ok (("Plugin hook error at " ++ stage) :: logs)
      | Except.error e => Except.error e
    | HookRes.raisesOther => Except.error ("uncaught hook exception at " ++ stage)

/-! ## Rule-based text patching (`rvp/optimizer.py`, `_apply_patch_to_file`) -/

/-- One entry of `AD_PATTERNS`: `(pattern, replacement, description)`. -/
structure Rule where
  pat : String
  repl : String
  label : String
  deriving Repr, DecidableEq

/-- Whether `pat` is a prefix of `s` (character-exact). -/
def isPrefixList : List Char → List Char → Bool
  | [], _ => true
  | _ :: _, [] => false
  | p :: ps, c :: cs => p == c && isPrefixList ps cs

/-- Global leftmost non-overlapping replacement on character lists, fuelled
by the input length so that the recursion is structural (one character of
fuel per character examined; after a match at position `i` scanning resumes
right after the matched occurrence). -/
def replaceFuel (pat repl : List Char) : Nat → List Char → List Char
  | _, [] => []
  | 0, s => s
  | fuel + 1, c :: cs =>
    if !pat.isEmpty && isPrefixList pat (c :: cs) then
      repl ++ replaceFuel pat repl fuel (List.drop (pat.length - 1) cs)
    else c :: replaceFuel pat repl fuel cs

/-- One `re.sub(pattern, replacement, content)` call.  For a literal
nonempty pattern `re.sub` performs global leftmost non-overlapping
replacement, which is what `replaceFuel` implements; the regex
metacharacter engine itself is outside the embedding, and the claims about
this function depend only on the substitution being a deterministic
function of its two inputs. -/
def reSub (pat repl content : String) : String :=
  String.mk (replaceFuel pat.toList repl.toList content.toList.length content.toList)

/-- The `for pattern, replacement, _ in patterns: content = re.sub(...)`
loop of `_apply_patch_to_file`: every rule is applied in list order to the
evolving text. -/
def applyRules (content : String) (rules : List Rule) : String :=
  rules.foldl (fun acc r => reSub r.pat r.repl acc) content

/-- `_apply_patch_to_file` on a file whose current content is `content`:
compute the patched text, write it back if and only if it differs from the
original.  Returns (resulting file content, whether the file was written);
the returned `applied_count` of the source is `1` exactly when the write
happened. -/
def _apply_patch_to_file (content : String) (rules : List Rule) : String × Bool :=
  let newContent := applyRules content rules
  if newContent ≠ content then (newContent, true) else (content, false)

/-! ## Artifact-pointer mutation sequences (for the Context invariant) -/

/-- One external mutation of the artifact pointer: a call
`ctx.set_current_apk(path)` made while the set of existing paths is `fs`.
A raised `FileNotFoundError` leaves the context as it was. -/
def applyOps (ctx : Context) : List (List String × String) → Context
  | [] => ctx
  | (fs, p) :: rest => applyOps (Context.set_current_apk fs ctx p).1 rest

/-- Pointer values reachable through `set_current_apk`: the path must have
existed at the time of the call. -/
def opCertified (ops : List (List String × String)) (p : String) : Prop :=
  ∃ fs, (fs, p) ∈ ops ∧ p ∈ fs

/-! ## Input validation (`rvp/validators.py`) -/

/-- The attributes of the input path that `validate_apk_path` consults:
`apk.exists()`, `apk.is_file()`, `apk.suffix` and `apk.stat().st_size`. -/
structure PathInfo where
  existsOnDisk : Bool
  isFile : Bool
  suffix : String
  sizeBytes : Nat
  deriving Repr, DecidableEq

/-- Python `str.lower()` restricted to the ASCII case mapping, on a
character-list representation (kernel-computable, unlike
`String.toLower`'s well-founded recursion). -/
def toLowerStr (s : String) : String :=
  String.mk (s.toList.map Char.toLower)

/-- `validate_apk_path`: raise `ValidationError` (modelled as `some msg`)
on the first failing check — missing path, non-file, wrong extension
(case-insensitive), empty file — otherwise return normally (`none`). -/
def validate_apk_path (p : PathInfo) : Option String :=
  if !p.existsOnDisk then some "APK file not found"
  else if !p.isFile then some "APK path is not a file"
  else if toLowerStr p.suffix ≠ ".apk" then some "File is not an APK"
  else if p.sizeBytes = 0 then some "APK file is empty"
  else none

/-- The attributes of the output path that `validate_output_dir`
consults. -/
structure OutDirInfo where
  existsOnDisk : Bool
  isDir : Bool
  deriving Repr, DecidableEq

/-- `validate_output_dir`: raise `ValidationError` if the output path
exists and is not a directory. -/
def validate_output_dir (o : OutDirInfo) : Option String :=
  if o.existsOnDisk ∧ !o.isDir then some "Output path exists but is not a directory"
  else none

/-! ## Pipeline executor (`rvp/core.py`, `run_pipeline`) -/

/-- Outcome of one engine invocation `all_engines[name](ctx)`.  The
executor catches exactly `(OSError, ValueError, RuntimeError)`;
`raisesOther` stands for an exception outside that tuple, which propagates
unwrapped. -/
inductive EngRes where
  | ok
  | raisesOS
  | raisesValue
  | raisesRuntime
  | raisesOther
  deriving Repr, DecidableEq

/-- Behaviour of a registered engine: its invocation outcome, the artifact
it installs via `ctx.set_current_apk` on success (if any), and the
metadata keys it writes. -/
structure EngineSpec where
  res : EngRes
  newApk : Option String := none
  metaKeys : List String := []
  deriving Repr, DecidableEq

/-- The engine registry produced by `get_engines()`: a name-keyed mapping,
modelled as an association list. -/
abbrev Registry := List (String × EngineSpec)

def lookupEngine (reg : Registry) (n : String) : Option EngineSpec :=
  match reg.find? (fun e => e.1 == n) with
  | some e => some e.2
  | none => none

/-- Errors that can escape `run_pipeline`: a `ValidationError` from the
validators, the wrapping `RuntimeError(f"Engine {name} failed")`, or an
engine exception outside the caught tuple propagating unwrapped. -/
inductive PipeError where
  | validation (msg : String)
  | engineFailed (name : String)
  | uncaught (name : String)
  deriving Repr, DecidableEq

/-- User-facing message of an escaped error. -/
def PipeError.message : PipeError → String
  | PipeError.validation m => m
  | PipeError.engineFailed n => "Engine " ++ n ++ " failed"
  | PipeError.uncaught n => "uncaught exception in engine " ++ n

/-- Observable trace of the `for name in engines` loop: the engines
actually invoked (in order), the skip warnings logged, the lifecycle-hook
stage labels dispatched, the artifact pointer and metadata keys after the
loop, and the error aborting it (if any). -/
structure EngineRun where
  executed : List String
  warnings : List String
  hooks : List String
  current : String
  metaKeys : List String
  err : Option PipeError
  deriving Repr, DecidableEq

/-- The engine loop of `run_pipeline`: an unknown name is warned about and
skipped (its pre/post hooks are not dispatched); a known engine gets
`pre_engine:<name>`, is invoked, then gets `post_engine:<name>`; an
invocation raising `OSError`, `ValueError` or `RuntimeError` is wrapped as
`RuntimeError("Engine <name> failed")` and aborts the loop (the
`post_engine` hook of the failing engine and all later engines are never
reached); any other exception aborts the loop unwrapped. -/
def runEngines (reg : Registry) : List String → String → List String → EngineRun
  | [], cur, meta => ⟨[], [], [], cur, meta, none⟩
  | n :: rest, cur, meta =>
    match lookupEngine reg n with
    | none =>
      let r := runEngines reg rest cur meta
      { r with warnings := ("Skipping unknown engine: " ++ n) :: r.warnings }
    | some spec =>
      match spec.res with
      | EngRes.ok =>
        let r := runEngines reg rest (spec.newApk.getD cur) (meta ++ spec.metaKeys)
        { executed := n :: r.executed
          warnings := r.warnings
          hooks := ("pre_engine:" ++ n) :: ("post_engine:" ++ n) :: r.hooks
          current := r.current
          metaKeys := r.metaKeys
          err := r.err }
      | EngRes.raisesOS =>
        ⟨[n], [], ["pre_engine:" ++ n], cur, meta, some (PipeError.engineFailed n)⟩
      | EngRes.raisesValue =>
        ⟨[n], [], ["pre_engine:" ++ n], cur, meta, some (PipeError.engineFailed n)⟩
      | EngRes.raisesRuntime =>
        ⟨[n], [], ["pre_engine:" ++ n], cur, meta, some (PipeError.engineFailed n)⟩
      | EngRes.raisesOther =>
        ⟨[n], [], ["pre_engine:" ++ n], cur, meta, some (PipeError.uncaught n)⟩

/-- The context returned by `run_pipeline`: its artifact pointer and the
keys of its metadata mapping. -/
structure FinalCtx where
  current_apk : String
  metaKeys : List String
  deriving Repr, DecidableEq

/-- Full observable outcome of a `run_pipeline` call. -/
structure PipelineResult where
  dirsCreated : Bool
  executed : List String
  warnings : List String
  hooks : List String
  outcome : Except PipeError FinalCtx
  deriving Repr

/-- `run_pipeline(input_apk, output_dir, engines, options)`: validate the
input artifact and the output path (raising before any directory is
created and before any engine runs), create the work/output directories,
construct the `Context` with the pointer at the input, dispatch
`pre_pipeline`, run the engine loop, dispatch `post_pipeline`, and as the
very last step before returning store the performance metrics under
`ctx.metadata["performance"]`. -/
def run_pipeline (inputInfo : PathInfo) (inputPath : String) (outInfo : OutDirInfo)
    (reg : Registry) (engines : List String) : PipelineResult :=
  match validate_apk_path inputInfo with
  | some m => ⟨false, [], [], [], Except.error (PipeError.validation m)⟩
  | none =>
    match validate_output_dir outInfo with
    | some m => ⟨false, [], [], [], Except.error (PipeError.validation m)⟩
    | none =>
      let r := runEngines reg engines inputPath []
      match r.err with
      | some e =>
        ⟨true, r.executed, r.warnings, "pre_pipeline" :: r.hooks, Except.error e⟩
      | none =>
        ⟨true, r.executed, r.warnings,
          "pre_pipeline" :: (r.hooks ++ ["post_pipeline"]),
          Except.ok ⟨r.current, r.metaKeys ++ ["performance"]⟩⟩

/-- State (artifact pointer, metadata keys) carried through the
invocation of one successfully completing engine. -/
def stepState (reg : Registry) (s : String × List String) (n : String) :
    String × List String :=
  match lookupEngine reg n with
  | some spec => (spec.newApk.getD s.1, s.2 ++ spec.metaKeys)
  | none => s

/-- State carried through a prefix of engine names that all either are
unknown or complete successfully. -/
def threadState (reg : Registry) (names : List String) (s : String × List String) :
    String × List String :=
  names.foldl (stepState reg) s

/-- An engine name that, when reached by the loop, does not abort it:
either unknown (skipped) or invoked with a successful return. -/
def okOrUnknown (reg : Registry) (n : String) : Bool :=
  match lookupEngine reg n with
  | some spec => spec.res == EngRes.ok
  | none => true

/-- The `pre_engine`/`post_engine` hook stage labels dispatched for a list
of successfully invoked engines. -/
def enginePairHooks (names : List String) : List String :=
  names.foldr (fun n acc => ("pre_engine:" ++ n) :: ("post_engine:" ++ n) :: acc) []

/-- The observable effect of a prefix of engine names that all either are
unknown or complete successfully, prepended to the trace of the remaining
loop. -/
def prefixRun (reg : Registry) (pre : List String) (r : EngineRun) : EngineRun :=
  { executed := pre.filter (fun n => (lookupEngine reg n).isSome) ++ r.executed
    warnings := (pre.filter (fun n => (lookupEngine reg n).isNone)).map
      (fun n => "Skipping unknown engine: " ++ n) ++ r.warnings
    hooks := enginePairHooks (pre.filter (fun n => (lookupEngine reg n).isSome)) ++ r.hooks
    current := r.current
    metaKeys := r.metaKeys
    err := r.err }

/-! ## String-resource usage analyzer (`rvp/engines/string_cleaner.py`) -/

/-- One line of a `strings.xml` resource file, classified by how the
analyzer's two patterns see it.

* `declLine name` — a complete declaration on a single line, anchored at
  line start: matched both by the definition pattern
  `<string\s+name="([^"]+)"` and by the line-anchored cleanup pattern
  `^\s*<string\s+name="([^"]+)"[^>]*>.*?</string>[ \t]*\n?`.
* `declOpen name` — a declaration whose value spans further lines, i.e.
  with no closing `</string>` on the line of the opening tag: matched by
  the definition pattern but NOT by the cleanup pattern (`.` does not
  match a newline, so `.*?</string>` must close on the same line).
* `other` — a line contributing no declaration and matched by neither. -/
inductive ResLine where
  | declLine (name : String)
  | declOpen (name : String)
  | other
  deriving Repr, DecidableEq

/-- A resource-definition file, found by `rglob("strings.xml")`. -/
structure ResFile where
  relPath : String
  lines : List ResLine
  deriving Repr, DecidableEq

/-- Any other file of the decompiled tree, with the attributes the
reference scan consults: whether its extension is in `{.xml, .smali}`,
whether its parent directory name contains `"drawable"`, and the keys its
content yields under the two reference patterns `R\.string\.([a-zA-Z0-9_]+)`
and `@string/([a-zA-Z0-9_]+)` (the result of `_find_string_references`).
By construction none of these files is named `strings.xml` — those are the
`ResFile`s — which is the scan's third filter. -/
structure SrcFile where
  relPath : String
  suffixIsXmlOrSmali : Bool
  parentHasDrawable : Bool
  refs : List String
  deriving Repr, DecidableEq

/-- A decompiled tree as the analyzer sees it: the `strings.xml` resource
files and every other file. -/
structure DecompiledTree where
  resFiles : List ResFile
  srcFiles : List SrcFile
  deriving Repr, DecidableEq

/-- Declared keys contributed by the lines of one resource file
(`_extract_string_names`): the definition pattern matches the opening tag
whether or not the declaration closes on the same line. -/
def extractLines : List ResLine → Finset String
  | [] => ∅
  | ResLine.declLine n :: rest => insert n (extractLines rest)
  | ResLine.declOpen n :: rest => insert n (extractLines rest)
  | ResLine.other :: rest => extractLines rest

/-- `_extract_string_names` applied to one resource file. -/
def _extract_string_names (f : ResFile) : Finset String :=
  extractLines f.lines

/-- `all_strings`: union of the declared keys of every `strings.xml`
file. -/
def allStrings (t : DecompiledTree) : Finset String :=
  t.resFiles.foldr (fun f acc => _extract_string_names f ∪ acc) ∅

/-- The reference scan's file filter: suffix in `{.xml, .smali}` and no
`"drawable"` in the parent directory name (`strings.xml` files are already
excluded by the `ResFile`/`SrcFile` split). -/
def sourceFilesScanned (t : DecompiledTree) : List SrcFile :=
  t.srcFiles.filter (fun f => f.suffixIsXmlOrSmali && !f.parentHasDrawable)

/-- Referenced keys: union of `_find_string_references` over the scanned
source files. -/
def referencedStrings (t : DecompiledTree) : Finset String :=
  (sourceFilesScanned t).foldr (fun f acc => f.refs.toFinset ∪ acc) ∅

/-- `reserved = {"app_name", "app_name_suffixed"}`: keys never removed. -/
def reservedStrings : Finset String :=
  {"app_name", "app_name_suffixed"}

/-- `used_strings` after `used_strings.update(reserved)`. -/
def usedStrings (t : DecompiledTree) : Finset String :=
  referencedStrings t ∪ reservedStrings

/-- The keys whose usage record has `is_used = False`: declared but
neither referenced nor reserved. -/
def unusedStrings (t : DecompiledTree) : Finset String :=
  (allStrings t).filter (fun n => n ∉ usedStrings t)

/-- `_clean_xml_content`: the cleanup pattern removes a whole-line
declaration whose name is in the unused set; a declaration not closed on
its opening line is not matched and survives. -/
def _clean_xml_content (unused : Finset String) (lines : List ResLine) : List ResLine :=
  lines.filter (fun l =>
    match l with
    | ResLine.declLine n => decide (n ∉ unused)
    | ResLine.declOpen _ => true
    | ResLine.other => true)

/-- `_remove_unused_strings`: clean every resource file that appears in
the unused keys' recorded declaration locations, i.e. every file declaring
at least one unused key; other files are untouched.  Source files are
never modified. -/
def _remove_unused_strings (t : DecompiledTree) : DecompiledTree :=
  let unused := unusedStrings t
  { t with
      resFiles := t.resFiles.map (fun f =>
        if (_extract_string_names f ∩ unused).Nonempty then
          { f with lines := _clean_xml_content unused f.lines }
        else f) }

/-- A line whose declaration (if any) the cleanup pattern can remove when
its key is unused: `declOpen` of an unused key is the one shape the
line-anchored single-line pattern cannot match. -/
def lineRemovable (unused : Finset String) : ResLine → Bool
  | ResLine.declOpen n => decide (n ∉ unused)
  | ResLine.declLine _ => true
  | ResLine.other => true

/-! ## Debloat stage (`rvp/optimizer.py`, `debloat_apk`) -/

/-- One entry of the decompiled tree, as `Path.rglob` yields it: its
tree-relative path, whether it is a directory, and its file size. -/
structure Entry where
  relPath : String
  isDir : Bool
  sizeBytes : Nat
  deriving Repr, DecidableEq

/-- `fnmatch`-style single-segment matching with the `*` wildcard,
fuelled by the combined input length so the recursion is structural. -/
def segMatchFuel : Nat → List Char → List Char → Bool
  | 0, _, _ => false
  | _ + 1, [], [] => true
  | _ + 1, [], _ :: _ => false
  | fuel + 1, '*' :: ps, cs =>
    segMatchFuel fuel ps cs ||
      (match cs with
       | [] => false
       | _ :: cs2 => segMatchFuel fuel ('*' :: ps) cs2)
  | _ + 1, _ :: _, [] => false
  | fuel + 1, p :: ps, c :: cs => p == c && segMatchFuel fuel ps cs

def segMatch (ps cs : List Char) : Bool :=
  segMatchFuel (ps.length + cs.length + 1) ps cs

/-- Split a path into its `/`-separated segments (as character lists). -/
def splitSegs : List Char → List Char → List (List Char)
  | [], acc => [acc.reverse]
  | c :: cs, acc => if c == '/' then acc.reverse :: splitSegs cs [] else splitSegs cs (c :: acc)

def splitPath (s : String) : List (List Char) :=
  splitSegs s.toList []

/-- Segment-wise glob matching of a whole pattern against a whole segment
list (lengths must agree). -/
def globSegs : List (List Char) → List (List Char) → Bool
  | [], [] => true
  | p :: ps, s :: ss => segMatch p s && globSegs ps ss
  | _, _ => false

/-- `decompiled_dir.rglob(pattern)` membership: the pattern (which may
contain `/` and `*`) matches a relative path when its segments match a
trailing run of the path's segments at any depth (`rglob(p)` is
`glob("**/" + p)`). -/
def rglobMatch (pattern relPath : String) : Bool :=
  (splitPath relPath).tails.any (fun t => globSegs (splitPath pattern) t)

/-- `path x` lies strictly inside directory `dir`. -/
def isUnder (dir path : String) : Bool :=
  isPrefixList (dir ++ "/").toList path.toList

/-- Effect of `match.unlink()` (a file: remove just that entry) or
`shutil.rmtree(match)` (a directory: remove the entry and its whole
subtree in one step, without visiting children individually). -/
def removeEntry (tree : List Entry) (e : Entry) : List Entry :=
  if e.isDir then
    tree.filter (fun x => !(x.relPath == e.relPath || isUnder e.relPath x.relPath))
  else
    tree.filter (fun x => !(x.relPath == e.relPath))

/-- Live tree plus the `removed_count` accumulator. -/
structure DebloatState where
  tree : List Entry
  removed_count : Nat
  deriving Repr, DecidableEq

/-- `match.is_file() or match.is_dir()` against the live file system: the
matched path still exists. -/
def existsPath (tree : List Entry) (p : String) : Bool :=
  tree.any (fun x => x.relPath == p)

/-- Body of `for match in matches`: if the matched entry still exists it
is removed (by kind) and counted once; an entry already gone (because an
enclosing directory was removed earlier in this round) is silently
skipped — `is_file()` and `is_dir()` are both false. -/
def processMatch (st : DebloatState) (m : Entry) : DebloatState :=
  if existsPath st.tree m.relPath then
    ⟨removeEntry st.tree m, st.removed_count + 1⟩
  else st

/-- One iteration of `for pattern in debloat_patterns`: materialise
`matches = list(decompiled_dir.rglob(pattern))` — one full traversal of
the live tree — then process each match. -/
def debloatPattern (st : DebloatState) (pattern : String) : DebloatState :=
  (st.tree.filter (fun e => rglobMatch pattern e.relPath)).foldl processMatch st

/-- Observable outcome of `debloat_apk`: the surviving tree, the
`removed_count` it logs, the number of full-tree `rglob` traversals it
performed, and the byte total its completion log line carries —
`"Debloat complete - removed {removed_count} items"` reports no bytes,
hence `none` (contrast `minify_resources`, which logs `removed_size`). -/
structure DebloatReport where
  tree : List Entry
  removed_count : Nat
  traversals : Nat
  reportedBytes : Option Nat
  deriving Repr, DecidableEq

/-- One step of the outer `for pattern in debloat_patterns` loop, paired
with a counter of full-tree traversals performed (each
`list(decompiled_dir.rglob(pattern))` call walks the whole live tree
once). -/
def debloatStep (acc : DebloatState × Nat) (p : String) : DebloatState × Nat :=
  (debloatPattern acc.1 p, acc.2 + 1)

/-- `debloat_apk`: early-return when no patterns are configured;
otherwise loop over the patterns, running one full-tree `rglob` traversal
per pattern (the source comments this as `O(n*m) where n=files,
m=patterns`). -/
def debloat_apk (tree : List Entry) (patterns : List String) : DebloatReport :=
  if patterns.isEmpty then ⟨tree, 0, 0, none⟩
  else
    let final := patterns.foldl debloatStep (⟨tree, 0⟩, 0)
    ⟨final.1.tree, final.1.removed_count, final.2, none⟩

/-- The tree's paths are pairwise distinct (true of any real directory
tree). -/
def pathsNodup (tree : List Entry) : Prop :=
  (tree.map Entry.relPath).Nodup

/-- Directory `d` and everything inside it are absent from `tree`. -/
def subtreeRemoved (d : Entry) (tree : List Entry) : Prop :=
  ∀ x ∈ tree, x.relPath ≠ d.relPath ∧ isUnder d.relPath x.relPath = false

/-- Invariant carried through the removal loop for a fixed directory
entry `d`: either `d` is still present, or it is gone together with its
whole subtree. -/
def dirIntact (d : Entry) (tree : List Entry) : Prop :=
  d ∈ tree ∨ subtreeRemoved d tree

end Rvp

namespace Rvp

/-! ## Theorems for C8, C10, C6, C3 -/

/-- Claim C8: `set_current_artifact` raises a Not-Found error if and only
if the path does not exist; when it raises, the context (in particular the
current-artifact pointer) is unchanged; on success the pointer is swapped
to the new path and an informational log line is appended. -/
theorem C8_set_current_apk_spec (fs : List String) (ctx : Context) (apk : String) :
    ((Context.set_current_apk fs ctx apk).2 = true ↔ apk ∉ fs) ∧
    ((Context.set_current_apk fs ctx apk).2 = true →
      (Context.set_current_apk fs ctx apk).1 = ctx) ∧
    ((Context.set_current_apk fs ctx apk).2 = false →
      (Context.set_current_apk fs ctx apk).1.current_apk = some apk ∧
      (Context.set_current_apk fs ctx apk).1.logs =
        ctx.logs ++ ["Current APK updated: " ++ apk]) := by
  unfold Context.set_current_apk
  by_cases h : apk ∈ fs
  · simp [h]
  · simp [h]

/-- Closed witness instantiating `C8_set_current_apk_spec` at a concrete
file system and context, discharging its (conditional) conclusions. -/
theorem C8_set_current_apk_spec_witness :
    ((Context.set_current_apk ["a.apk"] (Context.init "w" "in.apk" "o" [] []) "a.apk").2
        = true ↔ "a.apk" ∉ ["a.apk"]) ∧
    ((Context.set_current_apk ["a.apk"] (Context.init "w" "in.apk" "o" [] []) "a.apk").2 = true →
      (Context.set_current_apk ["a.apk"] (Context.init "w" "in.apk" "o" [] []) "a.apk").1
        = Context.init "w" "in.apk" "o" [] []) ∧
    ((Context.set_current_apk ["a.apk"] (Context.init "w" "in.apk" "o" [] []) "a.apk").2 = false →
      (Context.set_current_apk ["a.apk"] (Context.init "w" "in.apk" "o" [] []) "a.apk").1.current_apk
        = some "a.apk" ∧
      (Context.set_current_apk ["a.apk"] (Context.init "w" "in.apk" "o" [] []) "a.apk").1.logs
        = (Context.init "w" "in.apk" "o" [] []).logs ++ ["Current APK updated: " ++ "a.apk"]) :=
  C8_set_current_apk_spec ["a.apk"] (Context.init "w" "in.apk" "o" [] []) "a.apk"

theorem set_current_apk_input (fs : List String) (ctx : Context) (apk : String) :
    (Context.set_current_apk fs ctx apk).1.input_apk = ctx.input_apk := by
  unfold Context.set_current_apk
  by_cases h : apk ∈ fs <;> simp [h]

theorem applyOps_input (ops : List (List String × String)) (ctx : Context) :
    (applyOps ctx ops).input_apk = ctx.input_apk := by
  induction ops generalizing ctx with
  | nil => rfl
  | cons op rest ih =>
    obtain ⟨fs, q⟩ := op
    simp only [applyOps]
    rw [ih, set_current_apk_input]

theorem applyOps_invariant (allowed : List (List String × String))
    (ops : List (List String × String)) (hsub : ∀ o ∈ ops, o ∈ allowed)
    (ctx : Context)
    (hc : ∃ p, ctx.current_apk = some p ∧
      (p = ctx.input_apk ∨ opCertified allowed p)) :
    ∃ p, (applyOps ctx ops).current_apk = some p ∧
      (p = ctx.input_apk ∨ opCertified allowed p) := by
  induction ops generalizing ctx with
  | nil => simpa [applyOps] using hc
  | cons op rest ih =>
    obtain ⟨fs, q⟩ := op
    obtain ⟨p, hp, hcase⟩ := hc
    simp only [applyOps]
    by_cases hq : q ∈ fs
    · have hstep : (Context.set_current_apk fs ctx q).1.current_apk = some q ∧
          (Context.set_current_apk fs ctx q).1.input_apk = ctx.input_apk := by
        simp [Context.set_current_apk, hq]
      refine (ih (fun o ho => hsub o (List.mem_cons_of_mem _ ho)) _
        ⟨q, hstep.1, Or.inr ⟨fs, hsub _ (List.mem_cons_self _ _), hq⟩⟩).imp ?_
      intro x hx
      exact ⟨hx.1, by rw [← hstep.2]; exact hx.2⟩
    · have hunch : (Context.set_current_apk fs ctx q).1 = ctx := by
        simp [Context.set_current_apk, hq]
      rw [hunch]
      exact ih (fun o ho => hsub o (List.mem_cons_of_mem _ ho)) _ ⟨p, hp, hcase⟩

/-- Claim C10: from construction onward the current-artifact pointer is
non-None: `__post_init__` sets it to the input artifact, and after any
sequence of `set_current_apk` calls (the only mutator) the pointer is some
path that is either the input artifact or a path that existed at the time
it was installed. -/
theorem C10_current_apk_invariant (work input output : String)
    (engines options : List String) (ops : List (List String × String)) :
    (Context.init work input output engines options).current_apk = some input ∧
    ∃ p, (applyOps (Context.init work input output engines options) ops).current_apk = some p ∧
      (p = input ∨ opCertified ops p) := by
  constructor
  · rfl
  · exact applyOps_invariant ops ops (fun o ho => ho) _ ⟨input, rfl, Or.inl rfl⟩

/-- Counterexample for claim C6: a lifecycle-hook handler raising an
exception outside `(RuntimeError, ValueError, OSError)` — here modelled by
`HookRes.raisesOther`, e.g. a `TypeError` — is not caught by
`dispatch_hooks` and propagates out of the dispatch, contradicting "any
exception raised by the handler ... never propagates". -/
theorem C6_counterexample :
    dispatch_hooks "pre_pipeline" [HookRes.raisesOther] =
      Except.error ("uncaught hook exception at " ++ "pre_pipeline") := by
  rfl

/-- Claim C6 (amended): an exception of one of the caught kinds
(`RuntimeError`, `ValueError`, `OSError`) raised by a hook handler is
caught and logged and never propagates out of the dispatch; so a hook that
fails only with those kinds is never fatal.  Handlers raising any other
exception kind do propagate. -/
theorem C6_hook_errors_suppressed (stage : String) (handlers : List HookRes)
    (h : ∀ x ∈ handlers, x ≠ HookRes.raisesOther) :
    ∃ logs, dispatch_hooks stage handlers = Except.ok logs ∧
      logs.length = (handlers.filter (fun x => x ≠ HookRes.ok)).length := by
  induction handlers with
  | nil => exact ⟨[], rfl, rfl⟩
  | cons hd rest ih =>
    obtain ⟨logs, hrun, hlen⟩ := ih (fun x hx => h x (List.mem_cons_of_mem _ hx))
    have hhd := h hd (List.mem_cons_self _ _)
    cases hd with
    | ok => exact ⟨logs, by simpa [dispatch_hooks] using hrun, by simpa using hlen⟩
    | raisesRuntime =>
      refine ⟨("Plugin hook error at " ++ stage) :: logs, ?_, ?_⟩
      · simp [dispatch_hooks, hrun]
      · simp [List.filter, hlen]
    | raisesValue =>
      refine ⟨("Plugin hook error at " ++ stage) :: logs, ?_, ?_⟩
      · simp [dispatch_hooks, hrun]
      · simp [List.filter, hlen]
    | raisesOS =>
      refine ⟨("Plugin hook error at " ++ stage) :: logs, ?_, ?_⟩
      · simp [dispatch_hooks, hrun]
      · simp [List.filter, hlen]
    | raisesOther => exact absurd rfl hhd

/-- Closed witness applying `C6_hook_errors_suppressed` to a concrete
handler list containing one of each caught failure kind. -/
theorem C6_hook_errors_suppressed_witness :
    ∃ logs, dispatch_hooks "post_pipeline"
        [HookRes.ok, HookRes.raisesValue, HookRes.raisesOS, HookRes.raisesRuntime] =
        Except.ok logs ∧
      logs.length = ([HookRes.ok, HookRes.raisesValue, HookRes.raisesOS,
        HookRes.raisesRuntime].filter (fun x => x ≠ HookRes.ok)).length :=
  C6_hook_errors_suppressed "post_pipeline"
    [HookRes.ok, HookRes.raisesValue, HookRes.raisesOS, HookRes.raisesRuntime]
    (by decide)

/-- Claim C3: applying the rule list to a file is a pure function of
(file content, rule list) — two runs on equal inputs produce identical
output bytes; each rule's substitution is applied in list order to the
evolving text; and the file is written back if and only if the final text
differs from the original. -/
theorem C3_patch_pure_deterministic (content c2 : String) (rules rs2 : List Rule) :
    (content = c2 → rules = rs2 →
      _apply_patch_to_file content rules = _apply_patch_to_file c2 rs2) ∧
    (∀ r rest, applyRules content (r :: rest) =
      applyRules (reSub r.pat r.repl content) rest) ∧
    (_apply_patch_to_file content rules).1 = applyRules content rules ∧
    ((_apply_patch_to_file content rules).2 = true ↔
      applyRules content rules ≠ content) := by
  refine ⟨?_, ?_, ?_, ?_⟩
  · intro h1 h2; rw [h1, h2]
  · intro r rest; rfl
  · unfold _apply_patch_to_file
    by_cases h : applyRules content rules = content
    · simp [h]
    · simp [h]
  · unfold _apply_patch_to_file
    by_cases h : applyRules content rules = content
    · simp [h]
    · simp [h]

/-- Closed witness applying `C3_patch_pure_deterministic` to a concrete
content and rule list (the hypotheses of its first conjunct are equalities
discharged by `rfl`). -/
theorem C3_patch_pure_deterministic_witness :
    _apply_patch_to_file "invoke loadAd here" [⟨"loadAd", "nop", "Ads"⟩] =
      _apply_patch_to_file "invoke loadAd here" [⟨"loadAd", "nop", "Ads"⟩] ∧
    (_apply_patch_to_file "invoke loadAd here" [⟨"loadAd", "nop", "Ads"⟩]).2 = true :=
  ⟨(C3_patch_pure_deterministic "invoke loadAd here" "invoke loadAd here"
      [⟨"loadAd", "nop", "Ads"⟩] [⟨"loadAd", "nop", "Ads"⟩]).1 rfl rfl,
    ((C3_patch_pure_deterministic "invoke loadAd here" "invoke loadAd here"
      [⟨"loadAd", "nop", "Ads"⟩] [⟨"loadAd", "nop", "Ads"⟩]).2.2.2).mpr (by decide)⟩

/-! ## Theorems for the pipeline executor (C2, C5, C7, C9) -/

theorem prefixRun_nil (reg : Registry) (r : EngineRun) : prefixRun reg [] r = r := by
  simp [prefixRun, enginePairHooks]

theorem runEngines_append_ok (reg : Registry) (pre : List String)
    (h : ∀ n ∈ pre, okOrUnknown reg n = true) (rest : List String)
    (cur : String) (meta : List String) :
    runEngines reg (pre ++ rest) cur meta =
      prefixRun reg pre
        (runEngines reg rest (threadState reg pre (cur, meta)).1
          (threadState reg pre (cur, meta)).2) := by
  induction pre generalizing cur meta with
  | nil => simp [prefixRun_nil, threadState]
  | cons n pre ih =>
    have hn := h n (List.mem_cons_self _ _)
    have hrest : ∀ m ∈ pre, okOrUnknown reg m = true :=
      fun m hm => h m (List.mem_cons_of_mem _ hm)
    cases hl : lookupEngine reg n with
    | none =>
      simp only [List.cons_append, runEngines, hl, List.append_eq]
      rw [ih hrest]
      simp [prefixRun, threadState, stepState, hl, List.filter_cons, enginePairHooks]
    | some spec =>
      have hok : spec.res = EngRes.ok := by
        have := hn
        unfold okOrUnknown at this
        rw [hl] at this
        simpa using this
      simp only [List.cons_append, runEngines, hl, hok, List.append_eq]
      rw [ih hrest]
      simp [prefixRun, threadState, stepState, hl, List.filter_cons, enginePairHooks]

theorem runEngines_err_not_validation (reg : Registry) (ns : List String)
    (cur : String) (meta : List String) (m : String) :
    (runEngines reg ns cur meta).err ≠ some (PipeError.validation m) := by
  induction ns generalizing cur meta with
  | nil => simp [runEngines]
  | cons n rest ih =>
    cases hl : lookupEngine reg n with
    | none => simpa [runEngines, hl] using ih cur meta
    | some spec =>
      cases hres : spec.res <;> simp [runEngines, hl, hres]
      exact ih _ _

theorem validate_apk_path_none_iff (p : PathInfo) :
    validate_apk_path p = none ↔
      (p.existsOnDisk = true ∧ p.isFile = true ∧
        toLowerStr p.suffix = ".apk" ∧ p.sizeBytes ≠ 0) := by
  unfold validate_apk_path
  split_ifs with h1 h2 h3 h4 <;> simp_all

theorem validate_output_dir_none_iff (o : OutDirInfo) :
    validate_output_dir o = none ↔ (o.existsOnDisk = false ∨ o.isDir = true) := by
  unfold validate_output_dir
  cases he : o.existsOnDisk <;> cases hd : o.isDir <;> simp [he, hd]

/-- Claim C9: `run_pipeline` raises a validation failure if and only if
the input does not exist, is not a file, lacks the `.apk` extension
(case-insensitive), or is empty, or the output path is an existing
non-directory; and whenever a validation failure is raised it happens
before any directory is created and before any engine runs. -/
theorem C9_validation_spec (inputInfo : PathInfo) (inputPath : String)
    (outInfo : OutDirInfo) (reg : Registry) (engines : List String) :
    ((∃ m, (run_pipeline inputInfo inputPath outInfo reg engines).outcome =
        Except.error (PipeError.validation m)) ↔
      (inputInfo.existsOnDisk = false ∨ inputInfo.isFile = false ∨
        toLowerStr inputInfo.suffix ≠ ".apk" ∨ inputInfo.sizeBytes = 0 ∨
        (outInfo.existsOnDisk = true ∧ outInfo.isDir = false))) ∧
    (∀ m, (run_pipeline inputInfo inputPath outInfo reg engines).outcome =
        Except.error (PipeError.validation m) →
      (run_pipeline inputInfo inputPath outInfo reg engines).dirsCreated = false ∧
      (run_pipeline inputInfo inputPath outInfo reg engines).executed = [] ∧
      (run_pipeline inputInfo inputPath outInfo reg engines).hooks = []) := by
  have hiff1 := validate_apk_path_none_iff inputInfo
  have hiff2 := validate_output_dir_none_iff outInfo
  cases hv1 : validate_apk_path inputInfo with
  | some m =>
    have hbad : ¬ (inputInfo.existsOnDisk = true ∧ inputInfo.isFile = true ∧
        toLowerStr inputInfo.suffix = ".apk" ∧ inputInfo.sizeBytes ≠ 0) := by
      rw [← hiff1, hv1]; simp
    rw [not_and_or, not_and_or, not_and_or] at hbad
    simp only [Bool.not_eq_true, not_not] at hbad
    constructor
    · constructor
      · intro _
        rcases hbad with h | h | h | h
        · exact Or.inl h
        · exact Or.inr (Or.inl h)
        · exact Or.inr (Or.inr (Or.inl h))
        · exact Or.inr (Or.inr (Or.inr (Or.inl h)))
      · intro _
        exact ⟨m, by simp [run_pipeline, hv1]⟩
    · intro m' hm'
      simp [run_pipeline, hv1]
  | none =>
    have hgood1 := hiff1.mp hv1
    cases hv2 : validate_output_dir outInfo with
    | some m =>
      have hbad2 : ¬ (outInfo.existsOnDisk = false ∨ outInfo.isDir = true) := by
        rw [← hiff2, hv2]; simp
      rw [not_or] at hbad2
      simp only [Bool.not_eq_false, Bool.not_eq_true] at hbad2
      constructor
      · constructor
        · intro _
          exact Or.inr (Or.inr (Or.inr (Or.inr hbad2)))
        · intro _
          exact ⟨m, by simp [run_pipeline, hv1, hv2]⟩
      · intro m' hm'
        simp [run_pipeline, hv1, hv2]
    | none =>
      have hgood2 := hiff2.mp hv2
      have hnoval : ∀ m, (run_pipeline inputInfo inputPath outInfo reg engines).outcome ≠
          Except.error (PipeError.validation m) := by
        intro m
        simp only [run_pipeline, hv1, hv2]
        cases herr : (runEngines reg engines inputPath []).err with
        | none => simp [herr]
        | some e =>
          simp only [herr]
          intro hcontra
          have he : e = PipeError.validation m := by
            simpa using hcontra
          exact runEngines_err_not_validation reg engines inputPath [] m (he ▸ herr)
      constructor
      · constructor
        · intro hex
          obtain ⟨m, hm⟩ := hex
          exact absurd hm (hnoval m)
        · intro hcase
          exfalso
          rcases hcase with h | h | h | h | h
          · simp [hgood1.1] at h
          · simp [hgood1.2.1] at h
          · exact h hgood1.2.2.1
          · exact hgood1.2.2.2 h
          · rcases hgood2 with h2 | h2
            · simp [h2] at h
            · simp [h2] at h
      · intro m hm
        exact absurd hm (hnoval m)

/-- Closed witness applying `C9_validation_spec` to a concrete invalid
input (an empty file), discharging the conditional conclusions. -/
theorem C9_validation_spec_witness :
    ((∃ m, (run_pipeline ⟨true, true, ".apk", 0⟩ "e.apk" ⟨false, false⟩ [] []).outcome =
        Except.error (PipeError.validation m)) ↔
      ((⟨true, true, ".apk", 0⟩ : PathInfo).existsOnDisk = false ∨
        (⟨true, true, ".apk", 0⟩ : PathInfo).isFile = false ∨
        toLowerStr (⟨true, true, ".apk", 0⟩ : PathInfo).suffix ≠ ".apk" ∨
        (⟨true, true, ".apk", 0⟩ : PathInfo).sizeBytes = 0 ∨
        ((⟨false, false⟩ : OutDirInfo).existsOnDisk = true ∧
          (⟨false, false⟩ : OutDirInfo).isDir = false))) ∧
    (∀ m, (run_pipeline ⟨true, true, ".apk", 0⟩ "e.apk" ⟨false, false⟩ [] []).outcome =
        Except.error (PipeError.validation m) →
      (run_pipeline ⟨true, true, ".apk", 0⟩ "e.apk" ⟨false, false⟩ [] []).dirsCreated = false ∧
      (run_pipeline ⟨true, true, ".apk", 0⟩ "e.apk" ⟨false, false⟩ [] []).executed = [] ∧
      (run_pipeline ⟨true, true, ".apk", 0⟩ "e.apk" ⟨false, false⟩ [] []).hooks = []) :=
  C9_validation_spec ⟨true, true, ".apk", 0⟩ "e.apk" ⟨false, false⟩ [] []

/-- Claim C2: if an engine invocation raises an I/O failure (`OSError`),
an invalid-value failure (`ValueError`) or a runtime failure
(`RuntimeError`), `run_pipeline` re-raises the generic
`RuntimeError("Engine <name> failed")` naming the failing engine, and no
engine later in the requested list is ever invoked (fail-fast, no
retry): the invocation trace is exactly the successful prefix followed by
the failing engine. -/
theorem C2_engine_failure_fail_fast (inputInfo : PathInfo) (inputPath : String)
    (outInfo : OutDirInfo) (reg : Registry) (pre post : List String) (name : String)
    (spec : EngineSpec)
    (hv1 : validate_apk_path inputInfo = none)
    (hv2 : validate_output_dir outInfo = none)
    (hpre : ∀ n ∈ pre, okOrUnknown reg n = true)
    (hlook : lookupEngine reg name = some spec)
    (hbad : spec.res = EngRes.raisesOS ∨ spec.res = EngRes.raisesValue ∨
      spec.res = EngRes.raisesRuntime) :
    (run_pipeline inputInfo inputPath outInfo reg (pre ++ name :: post)).outcome =
      Except.error (PipeError.engineFailed name) ∧
    (run_pipeline inputInfo inputPath outInfo reg (pre ++ name :: post)).executed =
      pre.filter (fun n => (lookupEngine reg n).isSome) ++ [name] ∧
    (PipeError.engineFailed name).message = "Engine " ++ name ++ " failed" := by
  have hrun := runEngines_append_ok reg pre hpre (name :: post) inputPath []
  have hhead : runEngines reg (name :: post)
      (threadState reg pre (inputPath, [])).1 (threadState reg pre (inputPath, [])).2 =
      ⟨[name], [], ["pre_engine:" ++ name],
        (threadState reg pre (inputPath, [])).1, (threadState reg pre (inputPath, [])).2,
        some (PipeError.engineFailed name)⟩ := by
    rcases hbad with h | h | h <;> simp [runEngines, hlook, h]
  rw [hhead] at hrun
  simp only [run_pipeline, hv1, hv2, hrun]
  simp [prefixRun, PipeError.message]

/-- Closed witness applying `C2_engine_failure_fail_fast` to a concrete
registry where `ok1` succeeds, `ghost` is unregistered, `boom` raises a
`ValueError` and `never` would succeed but is never reached. -/
theorem C2_engine_failure_fail_fast_witness :
    (run_pipeline ⟨true, true, ".apk", 5⟩ "a.apk" ⟨false, false⟩
        [("ok1", ⟨EngRes.ok, none, []⟩), ("boom", ⟨EngRes.raisesValue, none, []⟩),
          ("never", ⟨EngRes.ok, none, []⟩)]
        (["ok1", "ghost"] ++ "boom" :: ["never"])).outcome =
      Except.error (PipeError.engineFailed "boom") ∧
    (run_pipeline ⟨true, true, ".apk", 5⟩ "a.apk" ⟨false, false⟩
        [("ok1", ⟨EngRes.ok, none, []⟩), ("boom", ⟨EngRes.raisesValue, none, []⟩),
          ("never", ⟨EngRes.ok, none, []⟩)]
        (["ok1", "ghost"] ++ "boom" :: ["never"])).executed =
      (["ok1", "ghost"].filter (fun n => (lookupEngine
        [("ok1", ⟨EngRes.ok, none, []⟩), ("boom", ⟨EngRes.raisesValue, none, []⟩),
          ("never", ⟨EngRes.ok, none, []⟩)] n).isSome)) ++ ["boom"] ∧
    (PipeError.engineFailed "boom").message = "Engine " ++ "boom" ++ " failed" :=
  C2_engine_failure_fail_fast ⟨true, true, ".apk", 5⟩ "a.apk" ⟨false, false⟩
    [("ok1", ⟨EngRes.ok, none, []⟩), ("boom", ⟨EngRes.raisesValue, none, []⟩),
      ("never", ⟨EngRes.ok, none, []⟩)]
    ["ok1", "ghost"] ["never"] "boom" ⟨EngRes.raisesValue, none, []⟩
    (by decide) (by decide) (by decide) (by decide) (Or.inr (Or.inl rfl))

/-- Claim C7: an engine name not present in the registry is warned about
and skipped — no error is raised, no `pre_engine`/`post_engine` hook is
dispatched for it, and the remaining requested engines still run — so a
pipeline whose registered engines all succeed completes, executing exactly
the registered engines in request order. -/
theorem C7_unknown_engine_tolerated (inputInfo : PathInfo) (inputPath : String)
    (outInfo : OutDirInfo) (reg : Registry) (engines : List String)
    (hv1 : validate_apk_path inputInfo = none)
    (hv2 : validate_output_dir outInfo = none)
    (hall : ∀ n ∈ engines, okOrUnknown reg n = true) :
    (∃ fc, (run_pipeline inputInfo inputPath outInfo reg engines).outcome =
      Except.ok fc) ∧
    (run_pipeline inputInfo inputPath outInfo reg engines).executed =
      engines.filter (fun n => (lookupEngine reg n).isSome) ∧
    (run_pipeline inputInfo inputPath outInfo reg engines).warnings =
      (engines.filter (fun n => (lookupEngine reg n).isNone)).map
        (fun n => "Skipping unknown engine: " ++ n) ∧
    (run_pipeline inputInfo inputPath outInfo reg engines).hooks =
      "pre_pipeline" ::
        (enginePairHooks (engines.filter (fun n => (lookupEngine reg n).isSome)) ++
          ["post_pipeline"]) := by
  have hrun := runEngines_append_ok reg engines hall [] inputPath []
  rw [List.append_nil] at hrun
  simp only [run_pipeline, hv1, hv2, hrun]
  simp [prefixRun, runEngines]

/-- Closed witness applying `C7_unknown_engine_tolerated` to the spec's
example: `debloat_stub` registered, `unknown_engine_xyz` not. -/
theorem C7_unknown_engine_tolerated_witness :
    (∃ fc, (run_pipeline ⟨true, true, ".apk", 5⟩ "a.apk" ⟨false, false⟩
        [("debloat_stub", ⟨EngRes.ok, none, []⟩)]
        ["debloat_stub", "unknown_engine_xyz"]).outcome = Except.ok fc) ∧
    (run_pipeline ⟨true, true, ".apk", 5⟩ "a.apk" ⟨false, false⟩
        [("debloat_stub", ⟨EngRes.ok, none, []⟩)]
        ["debloat_stub", "unknown_engine_xyz"]).executed =
      (["debloat_stub", "unknown_engine_xyz"].filter
        (fun n => (lookupEngine [("debloat_stub", ⟨EngRes.ok, none, []⟩)] n).isSome)) ∧
    (run_pipeline ⟨true, true, ".apk", 5⟩ "a.apk" ⟨false, false⟩
        [("debloat_stub", ⟨EngRes.ok, none, []⟩)]
        ["debloat_stub", "unknown_engine_xyz"]).warnings =
      (["debloat_stub", "unknown_engine_xyz"].filter
        (fun n => (lookupEngine [("debloat_stub", ⟨EngRes.ok, none, []⟩)] n).isNone)).map
        (fun n => "Skipping unknown engine: " ++ n) ∧
    (run_pipeline ⟨true, true, ".apk", 5⟩ "a.apk" ⟨false, false⟩
        [("debloat_stub", ⟨EngRes.ok, none, []⟩)]
        ["debloat_stub", "unknown_engine_xyz"]).hooks =
      "pre_pipeline" ::
        (enginePairHooks (["debloat_stub", "unknown_engine_xyz"].filter
          (fun n => (lookupEngine [("debloat_stub", ⟨EngRes.ok, none, []⟩)] n).isSome)) ++
          ["post_pipeline"]) :=
  C7_unknown_engine_tolerated ⟨true, true, ".apk", 5⟩ "a.apk" ⟨false, false⟩
    [("debloat_stub", ⟨EngRes.ok, none, []⟩)] ["debloat_stub", "unknown_engine_xyz"]
    (by decide) (by decide) (by decide)

/-- Counterexample for claim C5: on a valid non-empty `.apk` input with an
empty engine list, `run_pipeline` completes and the returned context's
current artifact equals the input path, but the metadata mapping is NOT
empty — the executor always stores the `"performance"` key before
returning (src/rvp/core.py line 209). -/
theorem C5_counterexample :
    (run_pipeline ⟨true, true, ".apk", 7⟩ "app.apk" ⟨false, false⟩ [] []).outcome =
      Except.ok ⟨"app.apk", ["performance"]⟩ ∧
    (["performance"] : List String) ≠ [] :=
  ⟨rfl, by decide⟩

/-- Claim C5 (amended): for a valid non-empty `.apk` input and an empty
requested-engine list, `run_pipeline` completes without error, the
returned context's current artifact equals the input path, and the
returned context's metadata mapping contains exactly the executor's own
`"performance"` key. -/
theorem C5_empty_engine_list (inputInfo : PathInfo) (inputPath : String)
    (outInfo : OutDirInfo) (reg : Registry)
    (hv1 : validate_apk_path inputInfo = none)
    (hv2 : validate_output_dir outInfo = none) :
    (run_pipeline inputInfo inputPath outInfo reg []).outcome =
      Except.ok ⟨inputPath, ["performance"]⟩ := by
  simp [run_pipeline, hv1, hv2, runEngines]

/-- Closed witness applying `C5_empty_engine_list` to a concrete valid
input. -/
theorem C5_empty_engine_list_witness :
    (run_pipeline ⟨true, true, ".apk", 7⟩ "app.apk" ⟨false, false⟩ [] []).outcome =
      Except.ok ⟨"app.apk", ["performance"]⟩ :=
  C5_empty_engine_list ⟨true, true, ".apk", 7⟩ "app.apk" ⟨false, false⟩ []
    (by decide) (by decide)

/-! ## Theorems for the string analyzer (C1) -/

theorem extractLines_clean (unused : Finset String) (lines : List ResLine)
    (h : ∀ l ∈ lines, lineRemovable unused l = true) :
    extractLines (_clean_xml_content unused lines) = extractLines lines \ unused := by
  induction lines with
  | nil => simp [_clean_xml_content, extractLines]
  | cons l rest ih =>
    have hrest := ih (fun x hx => h x (List.mem_cons_of_mem _ hx))
    have hl := h l (List.mem_cons_self _ _)
    cases l with
    | declLine n =>
      by_cases hn : n ∈ unused
      · have hdrop : _clean_xml_content unused (ResLine.declLine n :: rest) =
            _clean_xml_content unused rest := by
          simp [_clean_xml_content, List.filter_cons, hn]
        rw [hdrop, hrest,
          show extractLines (ResLine.declLine n :: rest) = insert n (extractLines rest)
            from rfl,
          Finset.insert_sdiff_of_mem _ hn]
      · have hkeep : _clean_xml_content unused (ResLine.declLine n :: rest) =
            ResLine.declLine n :: _clean_xml_content unused rest := by
          simp [_clean_xml_content, List.filter_cons, hn]
        rw [hkeep,
          show extractLines (ResLine.declLine n :: _clean_xml_content unused rest) =
            insert n (extractLines (_clean_xml_content unused rest)) from rfl,
          hrest,
          show extractLines (ResLine.declLine n :: rest) = insert n (extractLines rest)
            from rfl,
          Finset.insert_sdiff_of_not_mem _ hn]
    | declOpen n =>
      have hn : n ∉ unused := by simpa [lineRemovable] using hl
      have hkeep : _clean_xml_content unused (ResLine.declOpen n :: rest) =
          ResLine.declOpen n :: _clean_xml_content unused rest := by
        simp [_clean_xml_content, List.filter_cons]
      rw [hkeep,
        show extractLines (ResLine.declOpen n :: _clean_xml_content unused rest) =
          insert n (extractLines (_clean_xml_content unused rest)) from rfl,
        hrest,
        show extractLines (ResLine.declOpen n :: rest) = insert n (extractLines rest)
          from rfl,
        Finset.insert_sdiff_of_not_mem _ hn]
    | other =>
      have hkeep : _clean_xml_content unused (ResLine.other :: rest) =
          ResLine.other :: _clean_xml_content unused rest := by
        simp [_clean_xml_content, List.filter_cons]
      rw [hkeep,
        show extractLines (ResLine.other :: _clean_xml_content unused rest) =
          extractLines (_clean_xml_content unused rest) from rfl,
        hrest,
        show extractLines (ResLine.other :: rest) = extractLines rest from rfl]

theorem allStrings_remove_aux (unused : Finset String) (files : List ResFile)
    (h : ∀ f ∈ files, ∀ l ∈ f.lines, lineRemovable unused l = true) :
    (files.map (fun f =>
        if (_extract_string_names f ∩ unused).Nonempty then
          { f with lines := _clean_xml_content unused f.lines }
        else f)).foldr (fun f acc => _extract_string_names f ∪ acc) ∅ =
      files.foldr (fun f acc => _extract_string_names f ∪ acc) ∅ \ unused := by
  induction files with
  | nil => simp
  | cons f rest ih =>
    have hf := h f (List.mem_cons_self _ _)
    have hrest := ih (fun g hg => h g (List.mem_cons_of_mem _ hg))
    simp only [List.map_cons, List.foldr_cons]
    rw [hrest, Finset.union_sdiff_distrib]
    congr 1
    by_cases hne : (_extract_string_names f ∩ unused).Nonempty
    · simp only [hne, if_true]
      exact extractLines_clean unused f.lines hf
    · simp only [hne, if_false]
      have hdisj : Disjoint (_extract_string_names f) unused := by
        rw [Finset.disjoint_iff_inter_eq_empty]
        exact Finset.not_nonempty_iff_eq_empty.mp hne
      exact (Finset.sdiff_eq_self_of_disjoint hdisj).symm

theorem allStrings_remove (t : DecompiledTree)
    (h : ∀ f ∈ t.resFiles, ∀ l ∈ f.lines, lineRemovable (unusedStrings t) l = true) :
    allStrings (_remove_unused_strings t) = allStrings t \ unusedStrings t :=
  allStrings_remove_aux (unusedStrings t) t.resFiles h

/-- Counterexample for claim C1: a tree whose single resource file
declares the unreferenced key `unused_banner` in a declaration whose value
spans multiple lines.  The analyzer classifies it unused, but the
line-anchored cleanup pattern cannot remove it, so after removal and
re-scanning the new unused set is `{unused_banner}`, not the empty set the
claim requires. -/
theorem C1_counterexample :
    unusedStrings (DecompiledTree.mk
        [⟨"res/values/strings.xml", [ResLine.declOpen "unused_banner"]⟩] []) =
      {"unused_banner"} ∧
    unusedStrings (_remove_unused_strings (DecompiledTree.mk
        [⟨"res/values/strings.xml", [ResLine.declOpen "unused_banner"]⟩] [])) ≠
      (∅ : Finset String) := by
  constructor
  · decide
  · decide

/-- Claim C1 (amended): a declared key is classified used iff it appears
in the reference set or the reserved set, and the unused set equals
declared minus (references union reserved); and — provided every unused
key's declarations close on their opening line (the line-anchored cleanup
pattern's documented single-line limitation) — removing the unused keys'
declaration lines and re-scanning yields declared set = old declared minus
the removed keys and an empty new unused set. -/
theorem C1_string_analysis (t : DecompiledTree)
    (h : ∀ f ∈ t.resFiles, ∀ l ∈ f.lines, lineRemovable (unusedStrings t) l = true) :
    (∀ n ∈ allStrings t,
      (n ∈ usedStrings t ↔ (n ∈ referencedStrings t ∨ n ∈ reservedStrings))) ∧
    unusedStrings t = allStrings t \ (referencedStrings t ∪ reservedStrings) ∧
    allStrings (_remove_unused_strings t) = allStrings t \ unusedStrings t ∧
    unusedStrings (_remove_unused_strings t) = ∅ := by
  have hdecl := allStrings_remove t h
  refine ⟨?_, ?_, hdecl, ?_⟩
  · intro n _
    simp [usedStrings]
  · ext n
    simp [unusedStrings, usedStrings, Finset.mem_filter, Finset.mem_sdiff]
  · have hused : usedStrings (_remove_unused_strings t) = usedStrings t := rfl
    ext n
    simp only [Finset.not_mem_empty, iff_false]
    intro hmem
    rw [show unusedStrings (_remove_unused_strings t) =
        (allStrings (_remove_unused_strings t)).filter
          (fun n => n ∉ usedStrings (_remove_unused_strings t)) from rfl,
      Finset.mem_filter] at hmem
    obtain ⟨hall', hnotused'⟩ := hmem
    rw [hdecl, Finset.mem_sdiff] at hall'
    obtain ⟨hall, hnotun⟩ := hall'
    rw [hused] at hnotused'
    refine hnotun ?_
    rw [show unusedStrings t =
        (allStrings t).filter (fun n => n ∉ usedStrings t) from rfl,
      Finset.mem_filter]
    exact ⟨hall, hnotused'⟩

/-- Closed witness applying `C1_string_analysis` to the spec's example
tree: `strings.xml` declaring `{app_name, unused_banner}` (single-line
declarations) and one smali source referencing only `R.string.app_name`. -/
theorem C1_string_analysis_witness :
    (∀ n ∈ allStrings (DecompiledTree.mk
        [⟨"res/values/strings.xml",
          [ResLine.declLine "app_name", ResLine.declLine "unused_banner"]⟩]
        [⟨"smali/com/app/Main.smali", true, false, ["app_name"]⟩]),
      (n ∈ usedStrings (DecompiledTree.mk
        [⟨"res/values/strings.xml",
          [ResLine.declLine "app_name", ResLine.declLine "unused_banner"]⟩]
        [⟨"smali/com/app/Main.smali", true, false, ["app_name"]⟩]) ↔
        (n ∈ referencedStrings (DecompiledTree.mk
          [⟨"res/values/strings.xml",
            [ResLine.declLine "app_name", ResLine.declLine "unused_banner"]⟩]
          [⟨"smali/com/app/Main.smali", true, false, ["app_name"]⟩]) ∨
          n ∈ reservedStrings))) ∧
    unusedStrings (DecompiledTree.mk
        [⟨"res/values/strings.xml",
          [ResLine.declLine "app_name", ResLine.declLine "unused_banner"]⟩]
        [⟨"smali/com/app/Main.smali", true, false, ["app_name"]⟩]) =
      allStrings (DecompiledTree.mk
        [⟨"res/values/strings.xml",
          [ResLine.declLine "app_name", ResLine.declLine "unused_banner"]⟩]
        [⟨"smali/com/app/Main.smali", true, false, ["app_name"]⟩]) \
        (referencedStrings (DecompiledTree.mk
          [⟨"res/values/strings.xml",
            [ResLine.declLine "app_name", ResLine.declLine "unused_banner"]⟩]
          [⟨"smali/com/app/Main.smali", true, false, ["app_name"]⟩]) ∪ reservedStrings) ∧
    allStrings (_remove_unused_strings (DecompiledTree.mk
        [⟨"res/values/strings.xml",
          [ResLine.declLine "app_name", ResLine.declLine "unused_banner"]⟩]
        [⟨"smali/com/app/Main.smali", true, false, ["app_name"]⟩])) =
      allStrings (DecompiledTree.mk
        [⟨"res/values/strings.xml",
          [ResLine.declLine "app_name", ResLine.declLine "unused_banner"]⟩]
        [⟨"smali/com/app/Main.smali", true, false, ["app_name"]⟩]) \
        unusedStrings (DecompiledTree.mk
          [⟨"res/values/strings.xml",
            [ResLine.declLine "app_name", ResLine.declLine "unused_banner"]⟩]
          [⟨"smali/com/app/Main.smali", true, false, ["app_name"]⟩]) ∧
    unusedStrings (_remove_unused_strings (DecompiledTree.mk
        [⟨"res/values/strings.xml",
          [ResLine.declLine "app_name", ResLine.declLine "unused_banner"]⟩]
        [⟨"smali/com/app/Main.smali", true, false, ["app_name"]⟩])) = ∅ :=
  C1_string_analysis
    (DecompiledTree.mk
      [⟨"res/values/strings.xml",
        [ResLine.declLine "app_name", ResLine.declLine "unused_banner"]⟩]
      [⟨"smali/com/app/Main.smali", true, false, ["app_name"]⟩])
    (by decide)

/-! ## Theorems for the debloat stage (C4) -/

theorem isPrefixList_iff (p s : List Char) : isPrefixList p s = true ↔ p <+: s := by
  induction p generalizing s with
  | nil => simp [isPrefixList]
  | cons a ps ih =>
    cases s with
    | nil => simp [isPrefixList]
    | cons b bs => simp [isPrefixList, ih, List.cons_prefix_cons]

theorem isUnder_trans (a b c : String) (h1 : isUnder a b = true)
    (h2 : isUnder b c = true) : isUnder a c = true := by
  unfold isUnder at h1 h2 ⊢
  rw [isPrefixList_iff] at h1 h2 ⊢
  have hb : b.toList <+: (b ++ "/").toList := by
    rw [show (b ++ "/").toList = b.toList ++ "/".toList from rfl]
    exact List.prefix_append _ _
  exact h1.trans (hb.trans h2)

theorem mem_removeEntry (tree : List Entry) (e x : Entry)
    (hx : x ∈ removeEntry tree e) : x ∈ tree := by
  unfold removeEntry at hx
  split at hx <;> exact (List.mem_filter.mp hx).1

theorem mem_processMatch (st : DebloatState) (m x : Entry)
    (hx : x ∈ (processMatch st m).tree) : x ∈ st.tree := by
  unfold processMatch at hx
  split at hx
  · exact mem_removeEntry _ _ _ hx
  · exact hx

theorem mem_foldl_processMatch (l : List Entry) (st : DebloatState) (x : Entry)
    (hx : x ∈ (l.foldl processMatch st).tree) : x ∈ st.tree := by
  induction l generalizing st with
  | nil => exact hx
  | cons m rest ih => exact mem_processMatch _ _ _ (ih _ hx)

theorem mem_debloatPattern (st : DebloatState) (p : String) (x : Entry)
    (hx : x ∈ (debloatPattern st p).tree) : x ∈ st.tree :=
  mem_foldl_processMatch _ _ _ hx

theorem subtreeRemoved_mono (d : Entry) (t1 t2 : List Entry)
    (hsub : ∀ x ∈ t2, x ∈ t1) (h : subtreeRemoved d t1) : subtreeRemoved d t2 :=
  fun x hx => h x (hsub x hx)

theorem removeEntry_dir (tree : List Entry) (d : Entry) (hdir : d.isDir = true) :
    subtreeRemoved d (removeEntry tree d) := by
  intro x hx
  unfold removeEntry at hx
  rw [if_pos hdir] at hx
  have hcond := (List.mem_filter.mp hx).2
  simp only [Bool.not_eq_true', Bool.or_eq_false_iff, beq_eq_false_iff_ne] at hcond
  exact hcond

theorem path_inj (orig : List Entry) (hnd : pathsNodup orig) (x y : Entry)
    (hx : x ∈ orig) (hy : y ∈ orig) (hp : x.relPath = y.relPath) : x = y :=
  List.inj_on_of_nodup_map hnd hx hy hp

theorem processMatch_dirIntact (orig : List Entry) (hnd : pathsNodup orig)
    (d : Entry) (hd : d ∈ orig) (hdir : d.isDir = true)
    (st : DebloatState) (hsub : ∀ x ∈ st.tree, x ∈ orig)
    (m : Entry) (hm : m ∈ orig) (hInv : dirIntact d st.tree) :
    dirIntact d (processMatch st m).tree := by
  rcases hInv with hin | hdead
  case inr =>
    exact Or.inr (subtreeRemoved_mono d _ _
      (fun x hx => mem_processMatch _ _ _ hx) hdead)
  unfold processMatch
  split
  case isFalse => exact Or.inl hin
  case isTrue hex =>
    by_cases hdm : m.relPath = d.relPath
    · have hmd : m = d := path_inj orig hnd m d hm hd hdm
      rw [hmd]
      exact Or.inr (removeEntry_dir _ _ hdir)
    · by_cases hdin : d ∈ removeEntry st.tree m
      · exact Or.inl hdin
      · right
        have hdne : (d.relPath == m.relPath) = false :=
          beq_eq_false_iff_ne.mpr (fun hh => hdm hh.symm)
        have hmdir : m.isDir = true := by
          by_contra hmd2
          apply hdin
          unfold removeEntry
          rw [if_neg hmd2, List.mem_filter]
          exact ⟨hin, by simp [hdne]⟩
        have hundm : isUnder m.relPath d.relPath = true := by
          by_contra hun
          rw [Bool.not_eq_true] at hun
          apply hdin
          unfold removeEntry
          rw [if_pos hmdir, List.mem_filter]
          exact ⟨hin, by simp [hdne, hun]⟩
        intro x hx
        have hx0 : x ∈ removeEntry st.tree m := hx
        unfold removeEntry at hx
        rw [if_pos hmdir] at hx
        have hxmem := (List.mem_filter.mp hx).1
        have hxcond := (List.mem_filter.mp hx).2
        simp only [Bool.not_eq_true', Bool.or_eq_false_iff,
          beq_eq_false_iff_ne] at hxcond
        constructor
        · intro hxd
          exact hdin ((path_inj orig hnd x d (hsub x hxmem) hd hxd) ▸ hx0)
        · by_contra hu
          rw [Bool.not_eq_false] at hu
          exact absurd (isUnder_trans _ _ _ hundm hu)
            (by rw [hxcond.2]; exact Bool.false_ne_true)

theorem processMatch_self_dead (orig : List Entry) (hnd : pathsNodup orig)
    (d : Entry) (hd : d ∈ orig) (hdir : d.isDir = true)
    (st : DebloatState) (hsub : ∀ x ∈ st.tree, x ∈ orig)
    (hInv : dirIntact d st.tree) :
    subtreeRemoved d (processMatch st d).tree := by
  rcases hInv with hin | hdead
  · unfold processMatch
    have hex : existsPath st.tree d.relPath = true := by
      unfold existsPath
      rw [List.any_eq_true]
      exact ⟨d, hin, by simp⟩
    rw [if_pos hex]
    exact removeEntry_dir _ _ hdir
  · unfold processMatch
    have hex : existsPath st.tree d.relPath = false := by
      unfold existsPath
      rw [List.any_eq_false]
      intro x hx
      simp [(hdead x hx).1]
    rw [if_neg (by simp [hex])]
    exact hdead

theorem foldl_processMatch_intact (orig : List Entry) (hnd : pathsNodup orig)
    (d : Entry) (hd : d ∈ orig) (hdir : d.isDir = true)
    (l : List Entry) (hl : ∀ m ∈ l, m ∈ orig) :
    ∀ st : DebloatState, (∀ x ∈ st.tree, x ∈ orig) → dirIntact d st.tree →
      dirIntact d ((l.foldl processMatch st)).tree := by
  induction l with
  | nil => exact fun st _ hInv => hInv
  | cons m rest ih =>
    intro st hsub hInv
    exact ih (fun a ha => hl a (List.mem_cons_of_mem _ ha)) _
      (fun x hx => hsub x (mem_processMatch _ _ _ hx))
      (processMatch_dirIntact orig hnd d hd hdir st hsub m
        (hl m (List.mem_cons_self _ _)) hInv)

theorem foldl_processMatch_dead (orig : List Entry) (hnd : pathsNodup orig)
    (d : Entry) (hd : d ∈ orig) (hdir : d.isDir = true)
    (l : List Entry) (hl : ∀ m ∈ l, m ∈ orig) :
    ∀ st : DebloatState, (∀ x ∈ st.tree, x ∈ orig) → d ∈ l → dirIntact d st.tree →
      subtreeRemoved d ((l.foldl processMatch st)).tree := by
  induction l with
  | nil => exact fun st _ hmem _ => absurd hmem (List.not_mem_nil _)
  | cons m rest ih =>
    intro st hsub hmem hInv
    by_cases hmd : m = d
    · have hdead : subtreeRemoved d (processMatch st m).tree := by
        rw [hmd]
        exact processMatch_self_dead orig hnd d hd hdir st hsub hInv
      have hfin : subtreeRemoved d
          (List.foldl processMatch (processMatch st m) rest).tree :=
        subtreeRemoved_mono _ _ _
          (fun x hx => mem_foldl_processMatch rest _ x hx) hdead
      exact hfin
    · rcases List.mem_cons.mp hmem with h | h
      · exact absurd h.symm hmd
      · exact ih (fun a ha => hl a (List.mem_cons_of_mem _ ha)) _
          (fun x hx => hsub x (mem_processMatch _ _ _ hx)) h
          (processMatch_dirIntact orig hnd d hd hdir st hsub m
            (hl m (List.mem_cons_self _ _)) hInv)

theorem debloatPattern_intact (orig : List Entry) (hnd : pathsNodup orig)
    (d : Entry) (hd : d ∈ orig) (hdir : d.isDir = true)
    (st : DebloatState) (hsub : ∀ x ∈ st.tree, x ∈ orig) (p : String)
    (hInv : dirIntact d st.tree) :
    dirIntact d (debloatPattern st p).tree := by
  unfold debloatPattern
  exact foldl_processMatch_intact orig hnd d hd hdir _
    (fun m hm => hsub m (List.mem_filter.mp hm).1) st hsub hInv

theorem debloatPattern_dead (orig : List Entry) (hnd : pathsNodup orig)
    (d : Entry) (hd : d ∈ orig) (hdir : d.isDir = true)
    (st : DebloatState) (hsub : ∀ x ∈ st.tree, x ∈ orig) (p : String)
    (hmatch : rglobMatch p d.relPath = true) (hInv : dirIntact d st.tree) :
    subtreeRemoved d (debloatPattern st p).tree := by
  rcases hInv with hin | hdead
  · unfold debloatPattern
    apply foldl_processMatch_dead orig hnd d hd hdir _
      (fun m hm => hsub m (List.mem_filter.mp hm).1) st hsub
    · rw [List.mem_filter]
      exact ⟨hin, hmatch⟩
    · exact Or.inl hin
  · exact subtreeRemoved_mono _ _ _ (fun x hx => mem_debloatPattern _ _ _ hx) hdead

theorem foldl_debloatStep_subset (patterns : List String) :
    ∀ acc : DebloatState × Nat, ∀ x ∈ (patterns.foldl debloatStep acc).1.tree,
      x ∈ acc.1.tree := by
  induction patterns with
  | nil => exact fun acc x hx => hx
  | cons p rest ih =>
    intro acc x hx
    exact mem_debloatPattern _ _ _ (ih (debloatStep acc p) x hx)

theorem foldl_debloatStep_count (patterns : List String) :
    ∀ acc : DebloatState × Nat,
      (patterns.foldl debloatStep acc).2 = acc.2 + patterns.length := by
  induction patterns with
  | nil => exact fun acc => rfl
  | cons p rest ih =>
    intro acc
    rw [List.foldl_cons, ih]
    simp [debloatStep]
    omega

theorem foldl_debloatStep_dead (orig : List Entry) (hnd : pathsNodup orig)
    (d : Entry) (hd : d ∈ orig) (hdir : d.isDir = true)
    (patterns : List String) (p : String) (hmatch : rglobMatch p d.relPath = true) :
    ∀ acc : DebloatState × Nat, p ∈ patterns → (∀ x ∈ acc.1.tree, x ∈ orig) →
      dirIntact d acc.1.tree →
      subtreeRemoved d ((patterns.foldl debloatStep acc).1.tree) := by
  induction patterns with
  | nil => exact fun acc hp _ _ => absurd hp (List.not_mem_nil _)
  | cons q rest ih =>
    intro acc hp hsub hInv
    by_cases hqp : q = p
    · have hdead : subtreeRemoved d (debloatStep acc q).1.tree := by
        show subtreeRemoved d (debloatPattern acc.1 q).tree
        exact debloatPattern_dead orig hnd d hd hdir acc.1 hsub q (hqp ▸ hmatch) hInv
      exact subtreeRemoved_mono _ _ _
        (fun x hx => foldl_debloatStep_subset rest _ x hx) hdead
    · rcases List.mem_cons.mp hp with h | h
      · exact absurd h.symm hqp
      · exact ih _ h (fun x hx => hsub x (mem_debloatPattern _ _ _ hx))
          (debloatPattern_intact orig hnd d hd hdir acc.1 hsub q hInv)

/-- Counterexample for claim C4: with two patterns the debloat stage
performs two full-tree traversals, not one (the source loops
`for pattern in debloat_patterns: decompiled_dir.rglob(pattern)` and
comments it `O(n*m)`), and its report carries no reclaimed-byte total. -/
theorem C4_counterexample :
    (debloat_apk [⟨"a.txt", false, 10⟩, ⟨"b.txt", false, 20⟩]
      ["a.txt", "b.txt"]).traversals = 2 ∧
    (debloat_apk [⟨"a.txt", false, 10⟩, ⟨"b.txt", false, 20⟩]
      ["a.txt", "b.txt"]).traversals ≠ 1 ∧
    (debloat_apk [⟨"a.txt", false, 10⟩, ⟨"b.txt", false, 20⟩]
      ["a.txt", "b.txt"]).reportedBytes = none := by
  refine ⟨by decide, by decide, by decide⟩

/-- Claim C4 (amended): the debloat stage performs one full traversal of
the tree per removal pattern (`patterns.length` traversals, not a single
one); when a matched entry is a directory the whole subtree is removed
with it (nothing of it survives) and each matched removal increments the
removed count by exactly one (children of a removed directory are not
separately counted); the stage reports the count of removed entries but
no reclaimed-byte total. -/
theorem C4_debloat_per_pattern (tree : List Entry) (patterns : List String)
    (hne : patterns ≠ []) (hnd : pathsNodup tree) :
    (debloat_apk tree patterns).traversals = patterns.length ∧
    (debloat_apk tree patterns).reportedBytes = none ∧
    (∀ x ∈ (debloat_apk tree patterns).tree, x ∈ tree) ∧
    (∀ p ∈ patterns, ∀ d ∈ tree, d.isDir = true → rglobMatch p d.relPath = true →
      subtreeRemoved d (debloat_apk tree patterns).tree) ∧
    (∀ st m, (processMatch st m).removed_count = st.removed_count ∨
      (processMatch st m).removed_count = st.removed_count + 1) := by
  have hne' : patterns.isEmpty = false := by
    cases patterns with
    | nil => exact absurd rfl hne
    | cons q rest => rfl
  have heq : debloat_apk tree patterns =
      ⟨(patterns.foldl debloatStep (⟨tree, 0⟩, 0)).1.tree,
        (patterns.foldl debloatStep (⟨tree, 0⟩, 0)).1.removed_count,
        (patterns.foldl debloatStep (⟨tree, 0⟩, 0)).2, none⟩ := by
    unfold debloat_apk
    rw [if_neg (by simp [hne'])]
  rw [heq]
  refine ⟨?_, rfl, ?_, ?_, ?_⟩
  · show (patterns.foldl debloatStep (⟨tree, 0⟩, 0)).2 = patterns.length
    rw [foldl_debloatStep_count]
    exact Nat.zero_add patterns.length
  · intro x hx
    exact foldl_debloatStep_subset patterns _ x hx
  · intro p hp d hd hdir hmatch
    exact foldl_debloatStep_dead tree hnd d hd hdir patterns p hmatch
      (⟨tree, 0⟩, 0) hp (fun x hx => hx) (Or.inl hd)
  · intro st m
    unfold processMatch
    split
    · right; rfl
    · left; rfl

/-- Closed witness applying `C4_debloat_per_pattern` to a concrete tree
containing a matched directory with a child and an unmatched file. -/
theorem C4_debloat_per_pattern_witness :
    (debloat_apk [⟨"smali/ads", true, 0⟩, ⟨"smali/ads/A.smali", false, 5⟩,
        ⟨"keep.txt", false, 3⟩] ["ads"]).traversals = (["ads"] : List String).length ∧
    (debloat_apk [⟨"smali/ads", true, 0⟩, ⟨"smali/ads/A.smali", false, 5⟩,
        ⟨"keep.txt", false, 3⟩] ["ads"]).reportedBytes = none ∧
    (∀ x ∈ (debloat_apk [⟨"smali/ads", true, 0⟩, ⟨"smali/ads/A.smali", false, 5⟩,
        ⟨"keep.txt", false, 3⟩] ["ads"]).tree,
      x ∈ [⟨"smali/ads", true, 0⟩, ⟨"smali/ads/A.smali", false, 5⟩,
        (⟨"keep.txt", false, 3⟩ : Entry)]) ∧
    (∀ p ∈ (["ads"] : List String), ∀ d ∈ [⟨"smali/ads", true, 0⟩,
        ⟨"smali/ads/A.smali", false, 5⟩, (⟨"keep.txt", false, 3⟩ : Entry)],
      d.isDir = true → rglobMatch p d.relPath = true →
      subtreeRemoved d (debloat_apk [⟨"smali/ads", true, 0⟩,
        ⟨"smali/ads/A.smali", false, 5⟩, ⟨"keep.txt", false, 3⟩] ["ads"]).tree) ∧
    (∀ st m, (processMatch st m).removed_count = st.removed_count ∨
      (processMatch st m).removed_count = st.removed_count + 1) :=
  C4_debloat_per_pattern
    [⟨"smali/ads", true, 0⟩, ⟨"smali/ads/A.smali", false, 5⟩, ⟨"keep.txt", false, 3⟩]
    ["ads"] (by decide) (by unfold pathsNodup; decide)

end Rvp
